import Mathlib

/-!
Verification development for the donkit-ragops conversation-compaction
pipeline (`src/donkit_ragops/history_manager.py`) and the agent
orchestrator loop (`src/donkit_ragops/agent/agent.py`).

Text content is embedded as `List Char` (a Python `str` is a sequence of
characters); Python slices `s[:n]`, `s[-n:]` become `List.take` and
`List.drop (length - n)`, and `len` becomes `List.length`.  The token
estimator is embedded in its character-fallback mode (tiktoken is an
optional external dependency; when unavailable `_count_text_tokens`
divides the character count by 4).
-/

namespace RagOps

/-- Modelled from the spec: the `Message` data model of §3 comes from the
external `donkit.llm` package, which is not part of this repository.  Role
is one of system, user, assistant, tool (spec §3). -/
inductive Role
  | system
  | user
  | assistant
  | tool
deriving DecidableEq

/-- Modelled from the spec: message content is optional text or multiple
text parts (spec §3, "content: optional text (or multiple text parts)").
`MsgContent.none` is Python `None`; `str` is a plain string; `parts` is a
list of text parts. -/
inductive MsgContent
  | none
  | str (s : List Char)
  | parts (ps : List (List Char))
deriving DecidableEq

/-- Modelled from the spec: a tool call function payload
(`{function_name, arguments}`, spec §3). -/
structure ToolFunction where
  name : List Char
  arguments : List Char
deriving DecidableEq

/-- Modelled from the spec: one tool-call intent `{id, function}` carried
by an assistant message (spec §3). -/
structure ToolCall where
  id : List Char
  function : ToolFunction
deriving DecidableEq

/-- Modelled from the spec: the Message record of §3.  `tool_calls` is the
(possibly empty) ordered list of tool-call intents (Python `None` and `[]`
are both falsy, embedded as `[]`); `tool_call_id` and `name` are the
tool-linkage fields of tool-role messages. -/
structure Message where
  role : Role
  content : MsgContent
  tool_calls : List ToolCall
  tool_call_id : Option (List Char)
  name : Option (List Char)
deriving DecidableEq

/-- `Message(role="assistant", content=text)` as built by the compactor. -/
def mkAssistant (text : List Char) : Message :=
  { role := Role.assistant, content := MsgContent.str text,
    tool_calls := [], tool_call_id := none, name := none }

/-- `Message(role="user", content=text)`. -/
def mkUser (text : List Char) : Message :=
  { role := Role.user, content := MsgContent.str text,
    tool_calls := [], tool_call_id := none, name := none }

/- Constants of history_manager.py. -/

def HISTORY_TOKEN_THRESHOLD : Nat := 150000

def HISTORY_KEEP_RECENT_TURNS : Nat := 1

def EMERGENCY_MSG_MAX_CHARS : Nat := 4000

def KEEP_RECENT_TOOL_PAIRS : Nat := 3

def TOOL_RESULT_SUMMARY_CHARS : Nat := 500

def FALLBACK_TRUNCATION_NOTICE : List Char :=
  ("[CONVERSATION HISTORY TRUNCATED]\nPrevious conversation context was too large to summarize. Key context may have been lost. The most recent interaction is preserved below.\n[END TRUNCATION NOTICE]").toList

def HISTORY_SUMMARY_PROMPT : List Char :=
  ("Summarize this conversation concisely.\nPreserve ALL key information: file paths, project names, configurations, decisions, errors.\nFormat as bullet points. Be brief but complete.").toList

/-- `_count_text_tokens`, character-fallback mode: `if not text: return 0`
then `len(text) // 4`. -/
def _count_text_tokens (text : List Char) : Nat :=
  if text = [] then 0 else text.length / 4

/-- Token contribution of one message inside `_estimate_token_count`:
per-message overhead 4, content tokens (string content, or the string
parts of multipart content), tool-call name/argument tokens, and
tool_call_id tokens. -/
def messageTokens (m : Message) : Nat :=
  4
  + (match m.content with
     | MsgContent.none => 0
     | MsgContent.str s => _count_text_tokens s
     | MsgContent.parts ps => (ps.map _count_text_tokens).sum)
  + (m.tool_calls.map
      (fun tc => _count_text_tokens tc.function.name
        + _count_text_tokens tc.function.arguments)).sum
  + (match m.tool_call_id with
     | some tid => _count_text_tokens tid
     | none => 0)

/-- `_estimate_token_count`: the accumulating loop over all messages. -/
def _estimate_token_count (messages : List Message) : Nat :=
  (messages.map messageTokens).sum

/-- `_find_recent_complete_turns`.  `user_indices[-turns_to_keep]` is a
Python negative index; for `turns_to_keep = 0` it is `user_indices[0]`
(`-0 == 0`), otherwise element `length - turns_to_keep` (in bounds since
`1 ≤ turns_to_keep ≤ length`; `getD` default is never used there). -/
def _find_recent_complete_turns (messages : List Message) (num_turns : Nat) :
    List Message :=
  if messages = [] then []
  else
    let user_indices :=
      (messages.enum.filter (fun p => p.2.role == Role.user)).map Prod.fst
    if user_indices = [] then messages
    else
      let turns_to_keep := min num_turns user_indices.length
      let start_idx :=
        if turns_to_keep = 0 then user_indices.getD 0 0
        else user_indices.getD (user_indices.length - turns_to_keep) 0
      messages.drop start_idx

/-- The leading/tool_sequence split of `_compress_tool_calls_in_turn`:
messages are appended to `leading` until the first message that is not a
tool-call-free user/assistant message; from there on everything goes to
`tool_sequence` (the `found_tool_call` flag never resets). -/
def splitLeading : List Message → List Message × List Message
  | [] => ([], [])
  | m :: rest =>
    if (m.role = Role.user ∨ m.role = Role.assistant) ∧ m.tool_calls = [] then
      let p := splitLeading rest
      (m :: p.1, p.2)
    else ([], m :: rest)

/-- The pair-grouping loop of `_compress_tool_calls_in_turn`: a new pair
starts at an assistant message with tool_calls when the current pair is
non-empty; the final non-empty current pair is appended at the end. -/
def groupPairsAux (cur : List Message) : List Message → List (List Message)
  | [] => if cur = [] then [] else [cur]
  | m :: rest =>
    if m.role = Role.assistant ∧ m.tool_calls ≠ [] ∧ cur ≠ [] then
      cur :: groupPairsAux [m] rest
    else groupPairsAux (cur ++ [m]) rest

/-- Modelled from the spec: Python `(msg.content or "")` for the
tool-result preview.  `Message` is external to this repository; per spec
§3 content is text or text parts and per §4.2 tool results are text
(`execute(name, raw_arguments) -> text`), so the parts case — which never
occurs on tool-role messages — is rendered as the concatenation of its
text parts.  `None` and the empty parts list are falsy, giving `""`. -/
def toolResultText : MsgContent → List Char
  | MsgContent.none => []
  | MsgContent.str s => s
  | MsgContent.parts ps => ps.flatten

/-- Python `msg.name or "tool"`: `None` and the empty string are falsy. -/
def nameOrTool (n : Option (List Char)) : List Char :=
  match n with
  | some s => if s = [] then ("tool").toList else s
  | none => ("tool").toList

/-- The digest lines contributed by one message of an old pair:
`- Called {name}` per tool call of an assistant message;
`  {tool_name} result: {preview}` for a tool message, where the preview is
the first 200 characters, with `...` appended when longer. -/
def pairSummaryLines (msg : Message) : List (List Char) :=
  if msg.role = Role.assistant ∧ msg.tool_calls ≠ [] then
    msg.tool_calls.map (fun tc => ("- Called ").toList ++ tc.function.name)
  else if msg.role = Role.tool then
    let full := toolResultText msg.content
    let preview := full.take 200 ++ (if 200 < full.length then ("...").toList else [])
    [("  ").toList ++ nameOrTool msg.name ++ (" result: ").toList ++ preview]
  else []

/-- `summary_text` of `_compress_tool_calls_in_turn`: the digest built
from the old pairs, one summary list per message in iteration order,
joined with newlines between the fixed delimiters. -/
def digestText (old_pairs : List (List Message)) : List Char :=
  ("[COMPRESSED TOOL HISTORY]\n").toList
    ++ List.intercalate ("\n").toList (old_pairs.flatten.map pairSummaryLines).flatten
    ++ ("\n[END COMPRESSED TOOL HISTORY]").toList

/-- `pairs` as built by `_compress_tool_calls_in_turn` from the tool
sequence: the grouping loop run with an empty current pair. -/
def toolCallPairs (tool_sequence : List Message) : List (List Message) :=
  groupPairsAux [] tool_sequence

/-- `_compress_tool_calls_in_turn`.  Python `pairs[:-R]` / `pairs[-R:]`
are `take (length - R)` / `drop (length - R)` for `R ≥ 1`; for `R = 0`
Python `-0 == 0` makes them `[]` and `pairs` respectively. -/
def _compress_tool_calls_in_turn (msgs_to_keep : List Message)
    (num_recent_pairs : Nat) : List Message :=
  if msgs_to_keep = [] then msgs_to_keep
  else
    let lp := splitLeading msgs_to_keep
    let leading := lp.1
    let tool_sequence := lp.2
    if tool_sequence = [] then msgs_to_keep
    else
      let pairs := toolCallPairs tool_sequence
      if pairs.length ≤ num_recent_pairs then msgs_to_keep
      else
        let old_pairs :=
          if num_recent_pairs = 0 then []
          else pairs.take (pairs.length - num_recent_pairs)
        let recent_pairs :=
          if num_recent_pairs = 0 then pairs
          else pairs.drop (pairs.length - num_recent_pairs)
        leading ++ [mkAssistant (digestText old_pairs)] ++ recent_pairs.flatten

/-- `_shrink_tool_results`: tool-role string content longer than
`TOOL_RESULT_SUMMARY_CHARS` is replaced by a 500-char preview plus a
truncation hint naming the original length. -/
def _shrink_tool_results (messages : List Message) : List Message :=
  messages.map fun msg =>
    match msg.content with
    | MsgContent.str s =>
      if msg.role = Role.tool ∧ TOOL_RESULT_SUMMARY_CHARS < s.length then
        let preview :=
          s.take TOOL_RESULT_SUMMARY_CHARS
            ++ ("\n... [truncated, was ").toList
            ++ Nat.toDigits 10 s.length
            ++ (" chars]").toList
        { msg with content := MsgContent.str preview }
      else msg
    | _ => msg

/-- The truncation marker of `_emergency_truncate_messages`:
`f"\n\n[... truncated {orig_len} -> {EMERGENCY_MSG_MAX_CHARS} chars ...]\n\n"`
(`Nat.toDigits 10` is the decimal rendering of a Python int in an
f-string). -/
def emergencyNotice (orig_len : Nat) : List Char :=
  ("\n\n[... truncated ").toList
    ++ Nat.toDigits 10 orig_len
    ++ (" -> ").toList
    ++ Nat.toDigits 10 EMERGENCY_MSG_MAX_CHARS
    ++ (" chars ...]\n\n").toList

/-- Content-level body of `_emergency_truncate_messages`:
`keep_start = int(EMERGENCY_MSG_MAX_CHARS * 0.6) = 2400` (the double
product `4000 * 0.6` rounds to exactly `2400.0`), `keep_end = 4000 - 2400
- 100 = 1500`; oversized string content becomes
`content[:keep_start] + notice + content[-keep_end:]`; anything else is
left as it is. -/
def truncateContent (c : MsgContent) : MsgContent :=
  match c with
  | MsgContent.str s =>
    if EMERGENCY_MSG_MAX_CHARS < s.length then
      let keep_start : Nat := 2400
      let keep_end : Nat := EMERGENCY_MSG_MAX_CHARS - keep_start - 100
      MsgContent.str
        (s.take keep_start ++ emergencyNotice s.length ++ s.drop (s.length - keep_end))
    else c
  | _ => c

/-- Per-message body of `_emergency_truncate_messages`: `msg.model_copy`
with only the content replaced, every other field (role, tool linkage)
unchanged. -/
def emergencyTruncateMessage (msg : Message) : Message :=
  { msg with content := truncateContent msg.content }

/-- `_emergency_truncate_messages`: the per-message truncation applied to
every message of the list. -/
def _emergency_truncate_messages (messages : List Message) : List Message :=
  messages.map emergencyTruncateMessage

/-- The single summarization call the compactor may issue
(`provider.generate`), embedded as a function from the request messages to
either an exception (`Except.error`) or the optional response content. -/
def Summarizer : Type :=
  List Message → Except Unit (Option (List Char))

/-- The `try`/`except` around the summarization call of
`compress_history_if_needed`, Branch B: on success the summary is wrapped
(`[CONVERSATION HISTORY SUMMARY]` framing, a `None` content read as `""`)
into one synthetic assistant message between the system messages and the
compressed kept turn; on any summarizer error the fixed
`FALLBACK_TRUNCATION_NOTICE` takes its place, with the kept turn
additionally emergency-truncated when the fallback result still exceeds
the threshold. -/
def summaryOrFallback (system_msgs compressed_keep : List Message)
    (result : Except Unit (Option (List Char))) : List Message :=
  match result with
  | Except.ok content =>
    let summary := content.getD []
    let summary_text :=
      ("[CONVERSATION HISTORY SUMMARY]\n").toList ++ summary
        ++ ("\n[END SUMMARY]").toList
    system_msgs ++ [mkAssistant summary_text] ++ compressed_keep
  | Except.error _ =>
    let new_history :=
      system_msgs ++ [mkAssistant FALLBACK_TRUNCATION_NOTICE] ++ compressed_keep
    if HISTORY_TOKEN_THRESHOLD < _estimate_token_count new_history then
      system_msgs ++ [mkAssistant FALLBACK_TRUNCATION_NOTICE]
        ++ _emergency_truncate_messages compressed_keep
    else new_history

/-- `compress_history_if_needed`.  The branches, in source order: the
under-threshold no-op; Branch A (nothing to summarize) with its
emergency-truncation escalation; Branch B with the LLM summary on
success; and the mechanical fallback (fixed truncation notice) with its
own emergency-truncation escalation when the summarizer raises. -/
def compress_history_if_needed (history : List Message) (provider : Summarizer) :
    List Message :=
  let estimated_tokens := _estimate_token_count history
  if estimated_tokens ≤ HISTORY_TOKEN_THRESHOLD then history
  else
    let system_msgs := history.filter (fun m => m.role == Role.system)
    let conversation_msgs := history.filter (fun m => !(m.role == Role.system))
    let msgs_to_keep :=
      _find_recent_complete_turns conversation_msgs HISTORY_KEEP_RECENT_TURNS
    let msgs_to_summarize :=
      conversation_msgs.take (conversation_msgs.length - msgs_to_keep.length)
    if msgs_to_summarize = [] then
      let compressed_turn := _compress_tool_calls_in_turn msgs_to_keep KEEP_RECENT_TOOL_PAIRS
      let new_history := system_msgs ++ compressed_turn
      if _estimate_token_count new_history ≤ HISTORY_TOKEN_THRESHOLD then new_history
      else system_msgs ++ _emergency_truncate_messages compressed_turn
    else
      let shrunk_to_summarize := _shrink_tool_results msgs_to_summarize
      let compressed_keep := _compress_tool_calls_in_turn msgs_to_keep KEEP_RECENT_TOOL_PAIRS
      summaryOrFallback system_msgs compressed_keep
        (provider (shrunk_to_summarize ++ [mkUser HISTORY_SUMMARY_PROMPT]))

/- Agent orchestrator, src/donkit_ragops/agent/agent.py. -/

/-- Modelled from the spec: the provider response record
`{content?, tool_calls?}` (spec §6); `GenerateResponse` lives in the
external `donkit.llm` package.  A `tool_calls` of Python `None` is
embedded as `[]` (both are falsy). -/
structure GenResponse where
  content : Option (List Char)
  tool_calls : List ToolCall
deriving DecidableEq

/-- The outcome of the body of `_aexecute_tool_call`'s `try` block (tool
resolution and invocation, local or MCP).  The body's behaviour is
determined by external tool providers, so it is abstracted by its
outcome: a text result (per the Tool Provider contract
`invoke(name, arguments) -> text`, spec §6, and `_serialize_tool_result`
passing strings through), an ordinary exception with message text
(`except Exception as e`), or a cancellation
(`KeyboardInterrupt` / `asyncio.CancelledError`). -/
inductive ToolOutcome
  | ok (result : List Char)
  | error (msg : List Char)
  | cancelled
deriving DecidableEq

/-- The agent with its provider and tools: `supportsToolCalling` is
`provider.supports_capability(ModelCapability.TOOL_CALLING)`;
`generate messages toolsOffered` is one `await self.provider.generate`
call (the Bool records whether the request carried the tool catalog), an
`Except.error` being a cancellation raised at that suspension point —
the orchestrator code wraps no `try` around it; `toolExec` gives each
tool call's execution outcome; `maxIterations` bounds the loop. -/
structure AgentModel where
  supportsToolCalling : Bool
  generate : List Message → Bool → Except Unit GenResponse
  toolExec : ToolCall → ToolOutcome
  maxIterations : Nat

/-- `_aexecute_tool_call`: the `try`/`except` wrapper around the tool
body.  `KeyboardInterrupt` and `asyncio.CancelledError` are absorbed into
the fixed cancellation text; any other exception becomes
`Error: {str(e)}`; a normal result is returned (already text). -/
def _aexecute_tool_call (outcome : ToolOutcome) : List Char :=
  match outcome with
  | ToolOutcome.ok result => result
  | ToolOutcome.error e => ("Error: ").toList ++ e
  | ToolOutcome.cancelled => ("Tool execution cancelled by user (Ctrl+C)").toList

/-- `_append_synthetic_assistant_turn`: one assistant message with empty
text content carrying the tool calls. -/
def _append_synthetic_assistant_turn (tool_calls : List ToolCall) : Message :=
  { role := Role.assistant, content := MsgContent.str [],
    tool_calls := tool_calls, tool_call_id := none, name := none }

/-- The tool-role message appended for one executed call inside
`_ahandle_tool_calls`. -/
def toolResultMessage (A : AgentModel) (tc : ToolCall) : Message :=
  { role := Role.tool,
    content := MsgContent.str (_aexecute_tool_call (A.toolExec tc)),
    tool_calls := [], tool_call_id := some tc.id,
    name := some tc.function.name }

/-- `_ahandle_tool_calls`: append the synthetic assistant turn, then
execute the calls sequentially in arrival order, appending one tool
message per call. -/
def _ahandle_tool_calls (A : AgentModel) (messages : List Message)
    (tool_calls : List ToolCall) : List Message :=
  messages ++ [_append_synthetic_assistant_turn tool_calls]
    ++ tool_calls.map (toolResultMessage A)

/-- `_should_execute_tools`: the provider supports tool calling and the
response carries tool calls. -/
def _should_execute_tools (A : AgentModel) (resp : GenResponse) : Bool :=
  A.supportsToolCalling && !resp.tool_calls.isEmpty

/-- The `for _ in range(self.max_iterations)` loop of `arespond`, with an
explicit count of generation calls made so far.  Python
`if not resp.content` treats both `None` and the empty string as missing,
triggering the defensive retry without tools. -/
def arespondLoop (A : AgentModel) :
    List Message → Nat → Nat → Except Unit (List Char × Nat)
  | _, 0, calls => Except.ok ([], calls)
  | messages, fuel + 1, calls =>
    match A.generate messages A.supportsToolCalling with
    | Except.error e => Except.error e
    | Except.ok resp =>
      if _should_execute_tools A resp then
        arespondLoop A (_ahandle_tool_calls A messages resp.tool_calls) fuel (calls + 1)
      else
        let c := resp.content.getD []
        if c = [] then
          match A.generate messages false with
          | Except.error e => Except.error e
          | Except.ok retry_resp => Except.ok (retry_resp.content.getD [], calls + 2)
        else Except.ok (c, calls + 1)

/-- `arespond`: run the loop from the given history; the result pairs the
returned assistant content with the number of generation calls made, and
an `Except.error` is a cancellation that propagated out of the
orchestrator. -/
def arespond (A : AgentModel) (messages : List Message) :
    Except Unit (List Char × Nat) :=
  arespondLoop A messages A.maxIterations 0

/- Shared lemmas. -/

theorem count_text_tokens_eq (s : List Char) :
    _count_text_tokens s = s.length / 4 := by
  rw [_count_text_tokens]
  split <;> simp_all

theorem estimate_append (ms₁ ms₂ : List Message) :
    _estimate_token_count (ms₁ ++ ms₂)
      = _estimate_token_count ms₁ + _estimate_token_count ms₂ := by
  simp [_estimate_token_count]

theorem find_recent_no_user (messages : List Message) (num_turns : Nat)
    (h : ∀ m ∈ messages, m.role ≠ Role.user) :
    _find_recent_complete_turns messages num_turns = messages := by
  have hui : messages.enum.filter (fun p => p.2.role == Role.user) = [] := by
    rw [List.filter_eq_nil_iff]
    intro p hp
    have h2 : p.2 ∈ messages :=
      List.getElem?_mem (List.mem_enum_iff_getElem?.mp hp)
    simpa using h p.2 h2
  rw [_find_recent_complete_turns, hui]
  by_cases hm : messages = [] <;> simp [hm]

/-- C1: for every conversation whose estimated token count is at or below
the threshold, `compress_history_if_needed` returns the identical message
sequence, whatever the summarization provider does. -/
theorem c1_compress_under_threshold_noop (history : List Message)
    (provider : Summarizer)
    (h : _estimate_token_count history ≤ HISTORY_TOKEN_THRESHOLD) :
    compress_history_if_needed history provider = history := by
  rw [compress_history_if_needed]
  simp [h]

/-- Witness for C1 on a concrete one-message conversation. -/
theorem c1_witness :
    compress_history_if_needed [mkUser ("hi").toList] (fun _ => Except.ok none)
      = [mkUser ("hi").toList] :=
  c1_compress_under_threshold_noop _ _ (by decide)

theorem est_mkAssistant_replicate (n : Nat) (c : Char) :
    _estimate_token_count [mkAssistant (List.replicate n c)] = 4 + n / 4 := by
  simp [_estimate_token_count, messageTokens, mkAssistant, count_text_tokens_eq]

/-- C9: appending any message never decreases the token estimate; a plain
text message contributes exactly `4 + _count_text_tokens content` to the
estimate; and in the character-fallback mode doubling a text roughly
doubles its token count (equal up to one token of integer-division
rounding). -/
theorem c9_estimator_monotone_and_doubling :
    (∀ (ms : List Message) (m : Message),
        _estimate_token_count ms ≤ _estimate_token_count (ms ++ [m]))
    ∧ (∀ (ms : List Message) (c : List Char),
        _estimate_token_count (ms ++ [mkUser c])
          = _estimate_token_count ms + (4 + _count_text_tokens c))
    ∧ (∀ c : List Char,
        2 * _count_text_tokens c ≤ _count_text_tokens (c ++ c)
          ∧ _count_text_tokens (c ++ c) ≤ 2 * _count_text_tokens c + 1) := by
  refine ⟨?_, ?_, ?_⟩
  · intro ms m
    rw [estimate_append]
    exact Nat.le_add_right _ _
  · intro ms c
    have h1 : _estimate_token_count [mkUser c] = 4 + _count_text_tokens c := by
      simp [_estimate_token_count, messageTokens, mkUser]
    rw [estimate_append, h1]
  · intro c
    rcases eq_or_ne c [] with hc | hc
    · simp [hc, _count_text_tokens]
    · rw [count_text_tokens_eq, count_text_tokens_eq, List.length_append]
      omega

/-- C10: when the conversation portion contains no user-role message, the
keep-last-K-turns selection returns the entire list unchanged for every K;
consequently `compress_history_if_needed` has nothing to summarize and
Branch A (intra-turn compression, with its emergency-truncation
escalation) receives the whole conversation. -/
theorem c10_no_user_branch_a :
    (∀ (msgs : List Message) (K : Nat), (∀ m ∈ msgs, m.role ≠ Role.user) →
        _find_recent_complete_turns msgs K = msgs)
    ∧ (∀ (history : List Message) (provider : Summarizer),
        HISTORY_TOKEN_THRESHOLD < _estimate_token_count history →
        (∀ m ∈ history, m.role ≠ Role.user) →
        compress_history_if_needed history provider =
          (let system_msgs := history.filter (fun m => m.role == Role.system)
           let conversation_msgs := history.filter (fun m => !(m.role == Role.system))
           let compressed_turn :=
             _compress_tool_calls_in_turn conversation_msgs KEEP_RECENT_TOOL_PAIRS
           let new_history := system_msgs ++ compressed_turn
           if _estimate_token_count new_history ≤ HISTORY_TOKEN_THRESHOLD then new_history
           else system_msgs ++ _emergency_truncate_messages compressed_turn)) := by
  constructor
  · exact fun msgs K h => find_recent_no_user msgs K h
  · intro history provider hover huser
    have hnotle : ¬ (_estimate_token_count history ≤ HISTORY_TOKEN_THRESHOLD) := by omega
    have hfind : _find_recent_complete_turns
        (history.filter (fun m => !(m.role == Role.system))) HISTORY_KEEP_RECENT_TURNS
        = history.filter (fun m => !(m.role == Role.system)) :=
      find_recent_no_user _ _ (fun m hm => huser m (List.mem_of_mem_filter hm))
    simp only [compress_history_if_needed, hnotle, if_false, hfind, Nat.sub_self,
      List.take_zero, ite_true, if_pos]

/-- A content size big enough to push a single message over the token
threshold (kept behind a definition so that proof automation never
expands the literal-sized `List.replicate`). -/
def bigSize : Nat := 800000

/-- A single big assistant message: a conversation with no user turn. -/
def c10History : List Message := [mkAssistant (List.replicate bigSize 'a')]

/-- Witness for C10: a single big assistant message, no user messages. -/
theorem c10_witness :
    (_find_recent_complete_turns c10History 5 = c10History)
    ∧ (compress_history_if_needed c10History (fun _ => Except.ok none) =
        (let system_msgs := c10History.filter (fun m => m.role == Role.system)
         let conversation_msgs := c10History.filter (fun m => !(m.role == Role.system))
         let compressed_turn :=
           _compress_tool_calls_in_turn conversation_msgs KEEP_RECENT_TOOL_PAIRS
         let new_history := system_msgs ++ compressed_turn
         if _estimate_token_count new_history ≤ HISTORY_TOKEN_THRESHOLD then new_history
         else system_msgs ++ _emergency_truncate_messages compressed_turn)) := by
  have hrole : ∀ m ∈ c10History, m.role ≠ Role.user := by
    intro m hm
    rw [c10History, List.mem_singleton] at hm
    subst hm
    exact fun h => Role.noConfusion h
  have hest : HISTORY_TOKEN_THRESHOLD < _estimate_token_count c10History := by
    rw [c10History, est_mkAssistant_replicate]
    norm_num [HISTORY_TOKEN_THRESHOLD, bigSize]
  exact ⟨c10_no_user_branch_a.1 _ 5 hrole, c10_no_user_branch_a.2 _ _ hest hrole⟩

theorem toDigitsCore_length_le (fuel : Nat) :
    ∀ (n k : Nat) (ds : List Char), n < 10 ^ (k + 1) →
      (Nat.toDigitsCore 10 fuel n ds).length ≤ ds.length + (k + 1) := by
  induction fuel with
  | zero =>
    intro n k ds _
    simp [Nat.toDigitsCore]
  | succ fuel ih =>
    intro n k ds h
    simp only [Nat.toDigitsCore]
    by_cases h0 : n / 10 = 0
    · simp [h0]
    · rw [if_neg h0]
      match k with
      | 0 =>
        exact absurd (Nat.div_eq_of_lt (by simpa using h)) h0
      | k' + 1 =>
        have hlt : n / 10 < 10 ^ (k' + 1) := by
          rw [Nat.div_lt_iff_lt_mul (by norm_num)]
          calc n < 10 ^ (k' + 2) := h
            _ = 10 ^ (k' + 1) * 10 := by ring
        have hrec := ih (n / 10) k' (Nat.digitChar (n % 10) :: ds) hlt
        simp only [List.length_cons] at hrec
        omega

theorem toDigits_length_le (n k : Nat) (h : n < 10 ^ (k + 1)) :
    (Nat.toDigits 10 n).length ≤ k + 1 := by
  have := toDigitsCore_length_le (n + 1) n k [] h
  simpa [Nat.toDigits] using this

theorem emergencyNotice_length_le (n : Nat) (h : n < 2 ^ 63) :
    (emergencyNotice n).length ≤ 57 := by
  have h1 : (Nat.toDigits 10 n).length ≤ 19 :=
    toDigits_length_le n 18 (by
      calc n < 2 ^ 63 := h
        _ < 10 ^ 19 := by norm_num)
  have h2 : (Nat.toDigits 10 EMERGENCY_MSG_MAX_CHARS).length ≤ 4 :=
    toDigits_length_le EMERGENCY_MSG_MAX_CHARS 3 (by norm_num [EMERGENCY_MSG_MAX_CHARS])
  have l1 : ("\n\n[... truncated ").toList.length = 17 := rfl
  have l2 : (" -> ").toList.length = 4 := rfl
  have l3 : (" chars ...]\n\n").toList.length = 13 := rfl
  simp only [emergencyNotice, List.length_append, l1, l2, l3]
  omega

/-- C4: for a message whose string content is longer than the hard cap
`C = EMERGENCY_MSG_MAX_CHARS = 4000` characters (and representable as a
CPython string, whose length fits a signed 64-bit machine integer), the
emergency truncation yields content `content[:2400] ++ marker ++
content[-1500:]` of total length at most `C`, beginning with the leading
60 percent of the cap and ending with the trailing 1500 = C - 2400 - 100
characters, with role and tool-linkage fields unchanged; every message
whose content is at or under the cap (or is not a string) is returned
untouched. -/
theorem c4_truncation_bound :
    (∀ (m : Message) (s : List Char), m.content = MsgContent.str s →
        EMERGENCY_MSG_MAX_CHARS < s.length → s.length < 2 ^ 63 →
        (emergencyTruncateMessage m).content
          = MsgContent.str
              (s.take 2400 ++ emergencyNotice s.length ++ s.drop (s.length - 1500))
        ∧ (s.take 2400 ++ emergencyNotice s.length ++ s.drop (s.length - 1500)).length
            ≤ EMERGENCY_MSG_MAX_CHARS
        ∧ (emergencyTruncateMessage m).role = m.role
        ∧ (emergencyTruncateMessage m).tool_call_id = m.tool_call_id
        ∧ (emergencyTruncateMessage m).name = m.name
        ∧ (emergencyTruncateMessage m).tool_calls = m.tool_calls)
    ∧ (∀ m : Message,
        (∀ s, m.content = MsgContent.str s → s.length ≤ EMERGENCY_MSG_MAX_CHARS) →
        emergencyTruncateMessage m = m) := by
  constructor
  · intro m s hc hlen hmach
    have hcontent : truncateContent m.content
        = MsgContent.str
            (s.take 2400 ++ emergencyNotice s.length ++ s.drop (s.length - 1500)) := by
      rw [hc]
      simp only [truncateContent, if_pos hlen]
      norm_num [EMERGENCY_MSG_MAX_CHARS]
    refine ⟨by simpa [emergencyTruncateMessage] using hcontent, ?_, rfl, rfl, rfl, rfl⟩
    have hn := emergencyNotice_length_le s.length hmach
    simp only [EMERGENCY_MSG_MAX_CHARS] at hlen ⊢
    rw [List.length_append, List.length_append, List.length_take, List.length_drop]
    omega
  · intro m hsmall
    have hcontent : truncateContent m.content = m.content := by
      cases hc : m.content with
      | str s =>
        have hle := hsmall s hc
        simp [truncateContent, Nat.not_lt.mpr hle]
      | none => simp [truncateContent]
      | parts ps => simp [truncateContent]
    calc emergencyTruncateMessage m
        = { m with content := m.content } := by rw [emergencyTruncateMessage, hcontent]
      _ = m := rfl

/-- Content size just over the emergency cap. -/
def c4Size : Nat := 4001

/-- A user message whose content is one character over the cap. -/
def c4Msg : Message := mkUser (List.replicate c4Size 'x')

/-- Witness for C4 on the 4001-character message. -/
theorem c4_witness :
    (emergencyTruncateMessage c4Msg).content
      = MsgContent.str ((List.replicate c4Size 'x').take 2400
          ++ emergencyNotice (List.replicate c4Size 'x').length
          ++ (List.replicate c4Size 'x').drop ((List.replicate c4Size 'x').length - 1500))
    ∧ ((List.replicate c4Size 'x').take 2400
          ++ emergencyNotice (List.replicate c4Size 'x').length
          ++ (List.replicate c4Size 'x').drop ((List.replicate c4Size 'x').length - 1500)).length
        ≤ EMERGENCY_MSG_MAX_CHARS
    ∧ (emergencyTruncateMessage c4Msg).role = c4Msg.role
    ∧ (emergencyTruncateMessage c4Msg).tool_call_id = c4Msg.tool_call_id
    ∧ (emergencyTruncateMessage c4Msg).name = c4Msg.name
    ∧ (emergencyTruncateMessage c4Msg).tool_calls = c4Msg.tool_calls :=
  c4_truncation_bound.1 c4Msg (List.replicate c4Size 'x') rfl
    (by rw [List.length_replicate]; norm_num [c4Size, EMERGENCY_MSG_MAX_CHARS])
    (by rw [List.length_replicate]; norm_num [c4Size])

theorem splitLeading_append (msgs : List Message) :
    (splitLeading msgs).1 ++ (splitLeading msgs).2 = msgs := by
  induction msgs with
  | nil => simp [splitLeading]
  | cons m rest ih =>
    rw [splitLeading]
    by_cases h : (m.role = Role.user ∨ m.role = Role.assistant) ∧ m.tool_calls = []
    · simp [h, ih]
    · simp [h]

theorem groupPairsAux_flatten (ts : List Message) :
    ∀ cur, (groupPairsAux cur ts).flatten = cur ++ ts := by
  induction ts with
  | nil =>
    intro cur
    by_cases h : cur = [] <;> simp [groupPairsAux, h]
  | cons m rest ih =>
    intro cur
    rw [groupPairsAux]
    by_cases h : m.role = Role.assistant ∧ m.tool_calls ≠ [] ∧ cur ≠ []
    · simp [h, ih]
    · simp [h, ih]

/-- C3: with `pairs` the tool-call pairs of the kept turn, the intra-turn
compression is the identity (no digest message) when `pair_count ≤ R`;
when `R < pair_count` the output is the leading messages, exactly one
synthetic assistant digest over the old pairs, then the most recent
`min R pair_count = R` pairs verbatim (they are literally the
corresponding suffix of the input, as the decomposition equation shows). -/
theorem c3_pair_retention (msgs : List Message) (R : Nat) (hR : 0 < R) :
    ((toolCallPairs (splitLeading msgs).2).length ≤ R →
        _compress_tool_calls_in_turn msgs R = msgs)
    ∧ (R < (toolCallPairs (splitLeading msgs).2).length →
        _compress_tool_calls_in_turn msgs R
            = (splitLeading msgs).1
              ++ [mkAssistant (digestText ((toolCallPairs (splitLeading msgs).2).take
                    ((toolCallPairs (splitLeading msgs).2).length - R)))]
              ++ ((toolCallPairs (splitLeading msgs).2).drop
                    ((toolCallPairs (splitLeading msgs).2).length - R)).flatten
        ∧ msgs = (splitLeading msgs).1
              ++ ((toolCallPairs (splitLeading msgs).2).take
                    ((toolCallPairs (splitLeading msgs).2).length - R)).flatten
              ++ ((toolCallPairs (splitLeading msgs).2).drop
                    ((toolCallPairs (splitLeading msgs).2).length - R)).flatten
        ∧ ((toolCallPairs (splitLeading msgs).2).drop
              ((toolCallPairs (splitLeading msgs).2).length - R)).length
            = min R (toolCallPairs (splitLeading msgs).2).length
        ∧ (mkAssistant (digestText ((toolCallPairs (splitLeading msgs).2).take
              ((toolCallPairs (splitLeading msgs).2).length - R)))).role
            = Role.assistant) := by
  constructor
  · intro hle
    rw [_compress_tool_calls_in_turn]
    by_cases hm : msgs = []
    · simp [hm]
    · rw [if_neg hm]
      by_cases hts : (splitLeading msgs).2 = []
      · simp [hts]
      · simp only [hts, reduceIte]
        simp [hle]
  · intro hlt
    have hm : msgs ≠ [] := by
      intro he
      rw [he] at hlt
      simp [splitLeading, toolCallPairs, groupPairsAux] at hlt
    have hts : (splitLeading msgs).2 ≠ [] := by
      intro he
      rw [he] at hlt
      simp [toolCallPairs, groupPairsAux] at hlt
    have hR0 : R ≠ 0 := by omega
    have hnle : ¬ ((toolCallPairs (splitLeading msgs).2).length ≤ R) := by omega
    refine ⟨?_, ?_, ?_, rfl⟩
    · rw [_compress_tool_calls_in_turn, if_neg hm]
      simp only [hts, reduceIte, hnle, hR0]
    · have hsplit : ((toolCallPairs (splitLeading msgs).2).take
            ((toolCallPairs (splitLeading msgs).2).length - R)).flatten
          ++ ((toolCallPairs (splitLeading msgs).2).drop
            ((toolCallPairs (splitLeading msgs).2).length - R)).flatten
          = (splitLeading msgs).2 := by
        rw [← List.flatten_append, List.take_append_drop]
        simpa [toolCallPairs] using groupPairsAux_flatten (splitLeading msgs).2 []
      rw [List.append_assoc, hsplit, splitLeading_append]
    · rw [List.length_drop]
      omega

/-- One `assistant` message carrying a single tool call, for the C3
witness. -/
def c3Call (i : Nat) : Message :=
  { role := Role.assistant, content := MsgContent.str [],
    tool_calls := [⟨("id").toList,
      ⟨("tool").toList ++ Nat.toDigits 10 i, ("\x7b\x7d").toList⟩⟩],
    tool_call_id := none, name := none }

/-- One tool result message, for the C3 witness. -/
def c3Res : Message :=
  { role := Role.tool, content := MsgContent.str ("result").toList,
    tool_calls := [], tool_call_id := some ("id").toList,
    name := some ("tool").toList }

/-- A kept turn with two tool-call pairs, for the C3 witness. -/
def c3Msgs : List Message :=
  [mkUser ("q").toList, c3Call 0, c3Res, c3Call 1, c3Res]

/-- Witness for C3 on a concrete two-pair turn with `R = 1`. -/
theorem c3_witness :
    ((toolCallPairs (splitLeading c3Msgs).2).length ≤ 1 →
        _compress_tool_calls_in_turn c3Msgs 1 = c3Msgs)
    ∧ (1 < (toolCallPairs (splitLeading c3Msgs).2).length →
        _compress_tool_calls_in_turn c3Msgs 1
            = (splitLeading c3Msgs).1
              ++ [mkAssistant (digestText ((toolCallPairs (splitLeading c3Msgs).2).take
                    ((toolCallPairs (splitLeading c3Msgs).2).length - 1)))]
              ++ ((toolCallPairs (splitLeading c3Msgs).2).drop
                    ((toolCallPairs (splitLeading c3Msgs).2).length - 1)).flatten
        ∧ c3Msgs = (splitLeading c3Msgs).1
              ++ ((toolCallPairs (splitLeading c3Msgs).2).take
                    ((toolCallPairs (splitLeading c3Msgs).2).length - 1)).flatten
              ++ ((toolCallPairs (splitLeading c3Msgs).2).drop
                    ((toolCallPairs (splitLeading c3Msgs).2).length - 1)).flatten
        ∧ ((toolCallPairs (splitLeading c3Msgs).2).drop
              ((toolCallPairs (splitLeading c3Msgs).2).length - 1)).length
            = min 1 (toolCallPairs (splitLeading c3Msgs).2).length
        ∧ (mkAssistant (digestText ((toolCallPairs (splitLeading c3Msgs).2).take
              ((toolCallPairs (splitLeading c3Msgs).2).length - 1)))).role
            = Role.assistant) :=
  c3_pair_retention c3Msgs 1 (by decide)

theorem find_recent_mem (messages : List Message) (k : Nat) (m : Message)
    (h : m ∈ _find_recent_complete_turns messages k) : m ∈ messages := by
  simp only [_find_recent_complete_turns] at h
  by_cases hm : messages = []
  · simp [hm] at h
  · rw [if_neg hm] at h
    by_cases hui : (messages.enum.filter (fun p => p.2.role == Role.user)).map Prod.fst = []
    · rwa [if_pos hui] at h
    · rw [if_neg hui] at h
      exact List.mem_of_mem_drop h

theorem compress_tool_calls_mem (msgs : List Message) (R : Nat) (m : Message)
    (h : m ∈ _compress_tool_calls_in_turn msgs R) :
    m ∈ msgs ∨ m.role = Role.assistant := by
  simp only [_compress_tool_calls_in_turn] at h
  by_cases hm : msgs = []
  · rw [if_pos hm] at h
    exact Or.inl h
  · rw [if_neg hm] at h
    by_cases hts : (splitLeading msgs).2 = []
    · rw [if_pos hts] at h
      exact Or.inl h
    · rw [if_neg hts] at h
      by_cases hle : (toolCallPairs (splitLeading msgs).2).length ≤ R
      · rw [if_pos hle] at h
        exact Or.inl h
      · rw [if_neg hle] at h
        rcases List.mem_append.mp h with h1 | h2
        · rcases List.mem_append.mp h1 with hl | hd
          · left
            rw [← splitLeading_append msgs]
            exact List.mem_append_left _ hl
          · right
            rw [List.mem_singleton] at hd
            rw [hd]
            rfl
        · left
          have hflat : m ∈ (toolCallPairs (splitLeading msgs).2).flatten := by
            by_cases hR0 : R = 0
            · rw [if_pos hR0] at h2
              exact h2
            · rw [if_neg hR0] at h2
              rw [List.mem_flatten] at h2 ⊢
              obtain ⟨p, hp, hmp⟩ := h2
              exact ⟨p, List.mem_of_mem_drop hp, hmp⟩
          rw [toolCallPairs, groupPairsAux_flatten] at hflat
          rw [← splitLeading_append msgs]
          exact List.mem_append_right _ (by simpa using hflat)

theorem emergency_truncate_mem (ms : List Message) (m : Message)
    (h : m ∈ _emergency_truncate_messages ms) :
    ∃ m₀ ∈ ms, m = emergencyTruncateMessage m₀ ∧ m.role = m₀.role := by
  rw [_emergency_truncate_messages, List.mem_map] at h
  obtain ⟨m₀, hm₀, he⟩ := h
  exact ⟨m₀, hm₀, he.symm, by rw [← he]; rfl⟩

theorem conv_filter_not_system (history : List Message) (m : Message)
    (h : m ∈ history.filter (fun m => !(m.role == Role.system))) :
    m.role ≠ Role.system := by
  rw [List.mem_filter] at h
  simpa using h.2

/-- C2: whenever the estimate exceeds the threshold (so the pipeline does
compact), the output of every branch is exactly the input's system
messages — in original relative order, unmodified, first — followed by a
remainder containing no system-role message. -/
theorem c2_system_preservation (history : List Message) (provider : Summarizer)
    (h : HISTORY_TOKEN_THRESHOLD < _estimate_token_count history) :
    ∃ rest, compress_history_if_needed history provider
        = history.filter (fun m => m.role == Role.system) ++ rest
      ∧ ∀ m ∈ rest, m.role ≠ Role.system := by
  have hnotle : ¬ (_estimate_token_count history ≤ HISTORY_TOKEN_THRESHOLD) := by omega
  have hkeeprole : ∀ m ∈ _find_recent_complete_turns
      (history.filter (fun m => !(m.role == Role.system))) HISTORY_KEEP_RECENT_TURNS,
      m.role ≠ Role.system :=
    fun m hm => conv_filter_not_system history m (find_recent_mem _ _ m hm)
  have hcomp : ∀ m ∈ _compress_tool_calls_in_turn
      (_find_recent_complete_turns
        (history.filter (fun m => !(m.role == Role.system))) HISTORY_KEEP_RECENT_TURNS)
      KEEP_RECENT_TOOL_PAIRS,
      m.role ≠ Role.system := by
    intro m hm
    rcases compress_tool_calls_mem _ _ m hm with hin | hassist
    · exact hkeeprole m hin
    · rw [hassist]
      exact fun hcontra => Role.noConfusion hcontra
  have hemer : ∀ m ∈ _emergency_truncate_messages
      (_compress_tool_calls_in_turn
        (_find_recent_complete_turns
          (history.filter (fun m => !(m.role == Role.system))) HISTORY_KEEP_RECENT_TURNS)
        KEEP_RECENT_TOOL_PAIRS),
      m.role ≠ Role.system := by
    intro m hm
    obtain ⟨m₀, hm₀, _, hrole⟩ := emergency_truncate_mem _ m hm
    rw [hrole]
    exact hcomp m₀ hm₀
  simp only [compress_history_if_needed, hnotle, if_false]
  by_cases hsum : (history.filter (fun m => !(m.role == Role.system))).take
      ((history.filter (fun m => !(m.role == Role.system))).length
        - (_find_recent_complete_turns
            (history.filter (fun m => !(m.role == Role.system)))
            HISTORY_KEEP_RECENT_TURNS).length) = []
  · rw [if_pos hsum]
    by_cases hle2 : _estimate_token_count
        (history.filter (fun m => m.role == Role.system)
          ++ _compress_tool_calls_in_turn
              (_find_recent_complete_turns
                (history.filter (fun m => !(m.role == Role.system)))
                HISTORY_KEEP_RECENT_TURNS)
              KEEP_RECENT_TOOL_PAIRS) ≤ HISTORY_TOKEN_THRESHOLD
    · rw [if_pos hle2]
      exact ⟨_, rfl, hcomp⟩
    · rw [if_neg hle2]
      exact ⟨_, rfl, hemer⟩
  · rw [if_neg hsum]
    cases hprov : provider (_shrink_tool_results
        ((history.filter (fun m => !(m.role == Role.system))).take
          ((history.filter (fun m => !(m.role == Role.system))).length
            - (_find_recent_complete_turns
                (history.filter (fun m => !(m.role == Role.system)))
                HISTORY_KEEP_RECENT_TURNS).length))
        ++ [mkUser HISTORY_SUMMARY_PROMPT]) with
    | ok content =>
      simp only [summaryOrFallback]
      rw [List.append_assoc]
      refine ⟨_, rfl, ?_⟩
      intro m hm
      rcases List.mem_append.mp hm with h1 | h2
      · rw [List.mem_singleton] at h1
        rw [h1]
        exact fun hcontra => Role.noConfusion hcontra
      · exact hcomp m h2
    | error e =>
      simp only [summaryOrFallback]
      by_cases hgt : HISTORY_TOKEN_THRESHOLD < _estimate_token_count
          (history.filter (fun m => m.role == Role.system)
            ++ [mkAssistant FALLBACK_TRUNCATION_NOTICE]
            ++ _compress_tool_calls_in_turn
                (_find_recent_complete_turns
                  (history.filter (fun m => !(m.role == Role.system)))
                  HISTORY_KEEP_RECENT_TURNS)
                KEEP_RECENT_TOOL_PAIRS)
      · rw [if_pos hgt, List.append_assoc]
        refine ⟨_, rfl, ?_⟩
        intro m hm
        rcases List.mem_append.mp hm with h1 | h2
        · rw [List.mem_singleton] at h1
          rw [h1]
          exact fun hcontra => Role.noConfusion hcontra
        · exact hemer m h2
      · rw [if_neg hgt, List.append_assoc]
        refine ⟨_, rfl, ?_⟩
        intro m hm
        rcases List.mem_append.mp hm with h1 | h2
        · rw [List.mem_singleton] at h1
          rw [h1]
          exact fun hcontra => Role.noConfusion hcontra
        · exact hcomp m h2

/-- `Message(role="system", content=text)`. -/
def mkSystem (text : List Char) : Message :=
  { role := Role.system, content := MsgContent.str text,
    tool_calls := [], tool_call_id := none, name := none }

theorem est_cons (m : Message) (ms : List Message) :
    _estimate_token_count (m :: ms) = messageTokens m + _estimate_token_count ms := by
  simp [_estimate_token_count]

theorem messageTokens_mkSystem_replicate (n : Nat) (c : Char) :
    messageTokens (mkSystem (List.replicate n c)) = 4 + n / 4 := by
  simp [messageTokens, mkSystem, count_text_tokens_eq]

/-- A big system message followed by one small user message. -/
def c2History : List Message :=
  [mkSystem (List.replicate bigSize 'a'), mkUser ("hi").toList]

/-- Witness for C2 on a concrete over-threshold conversation. -/
theorem c2_witness :
    ∃ rest, compress_history_if_needed c2History (fun _ => Except.ok none)
        = c2History.filter (fun m => m.role == Role.system) ++ rest
      ∧ ∀ m ∈ rest, m.role ≠ Role.system :=
  c2_system_preservation c2History (fun _ => Except.ok none) (by
    rw [c2History, est_cons, est_cons, messageTokens_mkSystem_replicate]
    have hu : messageTokens (mkUser ("hi").toList) = 4 := by decide
    rw [hu]
    norm_num [bigSize, HISTORY_TOKEN_THRESHOLD, _estimate_token_count])

theorem fallback_branch_eq (history : List Message) (provider : Summarizer)
    (hover : HISTORY_TOKEN_THRESHOLD < _estimate_token_count history)
    (hsum : (history.filter (fun m => !(m.role == Role.system))).take
        ((history.filter (fun m => !(m.role == Role.system))).length
          - (_find_recent_complete_turns
              (history.filter (fun m => !(m.role == Role.system)))
              HISTORY_KEEP_RECENT_TURNS).length) ≠ [])
    (hfail : provider (_shrink_tool_results
        ((history.filter (fun m => !(m.role == Role.system))).take
          ((history.filter (fun m => !(m.role == Role.system))).length
            - (_find_recent_complete_turns
                (history.filter (fun m => !(m.role == Role.system)))
                HISTORY_KEEP_RECENT_TURNS).length))
        ++ [mkUser HISTORY_SUMMARY_PROMPT]) = Except.error ()) :
    compress_history_if_needed history provider
      = (if HISTORY_TOKEN_THRESHOLD < _estimate_token_count
            (history.filter (fun m => m.role == Role.system)
              ++ [mkAssistant FALLBACK_TRUNCATION_NOTICE]
              ++ _compress_tool_calls_in_turn
                  (_find_recent_complete_turns
                    (history.filter (fun m => !(m.role == Role.system)))
                    HISTORY_KEEP_RECENT_TURNS)
                  KEEP_RECENT_TOOL_PAIRS)
         then history.filter (fun m => m.role == Role.system)
              ++ [mkAssistant FALLBACK_TRUNCATION_NOTICE]
              ++ _emergency_truncate_messages
                  (_compress_tool_calls_in_turn
                    (_find_recent_complete_turns
                      (history.filter (fun m => !(m.role == Role.system)))
                      HISTORY_KEEP_RECENT_TURNS)
                    KEEP_RECENT_TOOL_PAIRS)
         else history.filter (fun m => m.role == Role.system)
              ++ [mkAssistant FALLBACK_TRUNCATION_NOTICE]
              ++ _compress_tool_calls_in_turn
                  (_find_recent_complete_turns
                    (history.filter (fun m => !(m.role == Role.system)))
                    HISTORY_KEEP_RECENT_TURNS)
                  KEEP_RECENT_TOOL_PAIRS) := by
  have hnotle : ¬ (_estimate_token_count history ≤ HISTORY_TOKEN_THRESHOLD) := by omega
  simp only [compress_history_if_needed, hnotle, if_false]
  rw [if_neg hsum, hfail]
  simp only [summaryOrFallback]

/-- C7 (amended): when the summarizer raises during Branch B, the
compactor does not raise; its output is the system messages, then one
assistant message holding the fixed truncation notice verbatim, then the
intra-turn-compressed kept turn — emergency-truncated per message when
the fallback result still exceeds the threshold.  (The original claim
also asserted the output estimate is strictly smaller than the
pre-compaction estimate; `c7_counterexample` refutes that part.) -/
theorem c7_fallback_structure (history : List Message) (provider : Summarizer)
    (hover : HISTORY_TOKEN_THRESHOLD < _estimate_token_count history)
    (hsum : (history.filter (fun m => !(m.role == Role.system))).take
        ((history.filter (fun m => !(m.role == Role.system))).length
          - (_find_recent_complete_turns
              (history.filter (fun m => !(m.role == Role.system)))
              HISTORY_KEEP_RECENT_TURNS).length) ≠ [])
    (hfail : provider (_shrink_tool_results
        ((history.filter (fun m => !(m.role == Role.system))).take
          ((history.filter (fun m => !(m.role == Role.system))).length
            - (_find_recent_complete_turns
                (history.filter (fun m => !(m.role == Role.system)))
                HISTORY_KEEP_RECENT_TURNS).length))
        ++ [mkUser HISTORY_SUMMARY_PROMPT]) = Except.error ()) :
    compress_history_if_needed history provider
      = (if HISTORY_TOKEN_THRESHOLD < _estimate_token_count
            (history.filter (fun m => m.role == Role.system)
              ++ [mkAssistant FALLBACK_TRUNCATION_NOTICE]
              ++ _compress_tool_calls_in_turn
                  (_find_recent_complete_turns
                    (history.filter (fun m => !(m.role == Role.system)))
                    HISTORY_KEEP_RECENT_TURNS)
                  KEEP_RECENT_TOOL_PAIRS)
         then history.filter (fun m => m.role == Role.system)
              ++ [mkAssistant FALLBACK_TRUNCATION_NOTICE]
              ++ _emergency_truncate_messages
                  (_compress_tool_calls_in_turn
                    (_find_recent_complete_turns
                      (history.filter (fun m => !(m.role == Role.system)))
                      HISTORY_KEEP_RECENT_TURNS)
                    KEEP_RECENT_TOOL_PAIRS)
         else history.filter (fun m => m.role == Role.system)
              ++ [mkAssistant FALLBACK_TRUNCATION_NOTICE]
              ++ _compress_tool_calls_in_turn
                  (_find_recent_complete_turns
                    (history.filter (fun m => !(m.role == Role.system)))
                    HISTORY_KEEP_RECENT_TURNS)
                  KEEP_RECENT_TOOL_PAIRS) :=
  fallback_branch_eq history provider hover hsum hfail

/-- A big system message, then two tiny one-message user turns; the
older turn is the only thing Branch B can summarize. -/
def c7History : List Message :=
  [mkSystem (List.replicate bigSize 'a'), mkUser ("hi").toList, mkUser ("yo").toList]

/-- A summarizer that always raises. -/
def c7Provider : Summarizer := fun _ => Except.error ()

theorem c7_est_history : _estimate_token_count c7History = 200012 := by
  rw [c7History, est_cons, est_cons, est_cons, messageTokens_mkSystem_replicate]
  have h1 : messageTokens (mkUser ("hi").toList) = 4 := by decide
  have h2 : messageTokens (mkUser ("yo").toList) = 4 := by decide
  rw [h1, h2]
  norm_num [bigSize, _estimate_token_count]

theorem c7_hover : HISTORY_TOKEN_THRESHOLD < _estimate_token_count c7History := by
  rw [c7_est_history]
  norm_num [HISTORY_TOKEN_THRESHOLD]

theorem c7_filter_conv : c7History.filter (fun m => !(m.role == Role.system))
    = [mkUser ("hi").toList, mkUser ("yo").toList] := rfl

theorem c7_hsum : (c7History.filter (fun m => !(m.role == Role.system))).take
    ((c7History.filter (fun m => !(m.role == Role.system))).length
      - (_find_recent_complete_turns
          (c7History.filter (fun m => !(m.role == Role.system)))
          HISTORY_KEEP_RECENT_TURNS).length) ≠ [] := by
  rw [c7_filter_conv]
  decide

/-- Witness for C7 (amended) on the concrete failing summarizer. -/
theorem c7_witness :
    compress_history_if_needed c7History c7Provider
      = (if HISTORY_TOKEN_THRESHOLD < _estimate_token_count
            (c7History.filter (fun m => m.role == Role.system)
              ++ [mkAssistant FALLBACK_TRUNCATION_NOTICE]
              ++ _compress_tool_calls_in_turn
                  (_find_recent_complete_turns
                    (c7History.filter (fun m => !(m.role == Role.system)))
                    HISTORY_KEEP_RECENT_TURNS)
                  KEEP_RECENT_TOOL_PAIRS)
         then c7History.filter (fun m => m.role == Role.system)
              ++ [mkAssistant FALLBACK_TRUNCATION_NOTICE]
              ++ _emergency_truncate_messages
                  (_compress_tool_calls_in_turn
                    (_find_recent_complete_turns
                      (c7History.filter (fun m => !(m.role == Role.system)))
                      HISTORY_KEEP_RECENT_TURNS)
                    KEEP_RECENT_TOOL_PAIRS)
         else c7History.filter (fun m => m.role == Role.system)
              ++ [mkAssistant FALLBACK_TRUNCATION_NOTICE]
              ++ _compress_tool_calls_in_turn
                  (_find_recent_complete_turns
                    (c7History.filter (fun m => !(m.role == Role.system)))
                    HISTORY_KEEP_RECENT_TURNS)
                  KEEP_RECENT_TOOL_PAIRS) :=
  c7_fallback_structure c7History c7Provider c7_hover c7_hsum rfl

set_option maxRecDepth 4000 in
theorem c7_notice_len_ge : 4 ≤ FALLBACK_TRUNCATION_NOTICE.length := by decide

theorem c7_messageTokens_notice :
    messageTokens (mkAssistant FALLBACK_TRUNCATION_NOTICE)
      = 4 + FALLBACK_TRUNCATION_NOTICE.length / 4 := by
  simp [messageTokens, mkAssistant, count_text_tokens_eq]

/-- Counterexample for C7 as stated: on `c7History` the fallback output's
estimate is strictly larger than the pre-compaction estimate (the small
summarized turn is replaced by the longer fixed notice), refuting
"the output's estimated size is strictly smaller". -/
theorem c7_counterexample :
    _estimate_token_count c7History
      < _estimate_token_count (compress_history_if_needed c7History c7Provider) := by
  have happly := fallback_branch_eq c7History c7Provider c7_hover c7_hsum rfl
  have hfind : _find_recent_complete_turns
      (c7History.filter (fun m => !(m.role == Role.system))) HISTORY_KEEP_RECENT_TURNS
      = [mkUser ("yo").toList] := rfl
  have hck : _compress_tool_calls_in_turn [mkUser ("yo").toList] KEEP_RECENT_TOOL_PAIRS
      = [mkUser ("yo").toList] := rfl
  have hem : _emergency_truncate_messages [mkUser ("yo").toList]
      = [mkUser ("yo").toList] := by decide
  have hfilter_sys : c7History.filter (fun m => m.role == Role.system)
      = [mkSystem (List.replicate bigSize 'a')] := rfl
  rw [hfind, hck, hem, hfilter_sys] at happly
  have hL : 1 ≤ FALLBACK_TRUNCATION_NOTICE.length / 4 := by
    have := c7_notice_len_ge
    omega
  have hout : _estimate_token_count
      ([mkSystem (List.replicate bigSize 'a')]
        ++ [mkAssistant FALLBACK_TRUNCATION_NOTICE] ++ [mkUser ("yo").toList])
      = 200012 + FALLBACK_TRUNCATION_NOTICE.length / 4 := by
    rw [estimate_append, estimate_append, est_cons, est_cons, est_cons,
      messageTokens_mkSystem_replicate, c7_messageTokens_notice]
    have h2 : messageTokens (mkUser ("yo").toList) = 4 := by decide
    rw [h2]
    norm_num [bigSize, _estimate_token_count]
    omega
  rw [happly]
  rw [if_pos (by rw [hout]; simp only [HISTORY_TOKEN_THRESHOLD]; omega)]
  rw [hout, c7_est_history]
  omega

/-- C5: when the provider supports tool calling and every generation
response carries tool-call intents, `arespond` makes exactly
`max_iterations` generation calls and returns empty content, never
raising (the result is `ok`, not an exception). -/
theorem c5_loop_termination (A : AgentModel) (messages : List Message)
    (hsupp : A.supportsToolCalling = true)
    (hgen : ∀ ms b, ∃ r, A.generate ms b = Except.ok r ∧ r.tool_calls ≠ []) :
    arespond A messages = Except.ok ([], A.maxIterations) := by
  have hloop : ∀ fuel ms calls,
      arespondLoop A ms fuel calls = Except.ok ([], calls + fuel) := by
    intro fuel
    induction fuel with
    | zero =>
      intro ms calls
      simp [arespondLoop]
    | succ fuel ih =>
      intro ms calls
      obtain ⟨r, hr, htc⟩ := hgen ms A.supportsToolCalling
      have hexec : _should_execute_tools A r = true := by
        simp [_should_execute_tools, hsupp, List.isEmpty_iff, htc]
      simp only [arespondLoop, hr, hexec, if_true]
      rw [ih]
      have harith : calls + 1 + fuel = calls + (fuel + 1) := by omega
      rw [harith]
  rw [arespond, hloop]
  rw [Nat.zero_add]

/-- A provider response that always asks for one more tool call. -/
def c5Tc : ToolCall := ⟨("1").toList, ⟨("t").toList, ("\x7b\x7d").toList⟩⟩

/-- An agent whose provider always requests tool calls. -/
def c5Agent : AgentModel :=
  { supportsToolCalling := true,
    generate := fun _ _ => Except.ok ⟨none, [c5Tc]⟩,
    toolExec := fun _ => ToolOutcome.ok ("done").toList,
    maxIterations := 2 }

/-- Witness for C5 on a concrete always-tool-calling agent. -/
theorem c5_witness : arespond c5Agent [] = Except.ok ([], 2) :=
  c5_loop_termination c5Agent [] rfl
    (fun _ _ => ⟨⟨none, [c5Tc]⟩, rfl, by decide⟩)

/-- C6: the dispatcher wrapper turns a handler exception with message
`boom` into the tool-result text `Error: boom` (which contains `boom`),
and whenever the provider itself raises nothing, the whole orchestrator
run ends in an ordinary result — no exception escapes, whatever the tool
handlers do (including raising); moreover after a response with tool
calls the loop simply proceeds to its next iteration on the extended
conversation. -/
theorem c6_dispatcher_never_raises :
    (_aexecute_tool_call (ToolOutcome.error ("boom").toList) = ("Error: boom").toList
      ∧ ∃ pre post, _aexecute_tool_call (ToolOutcome.error ("boom").toList)
          = pre ++ ("boom").toList ++ post)
    ∧ (∀ (A : AgentModel) (ms : List Message) (fuel calls : Nat) (r : GenResponse),
        A.generate ms A.supportsToolCalling = Except.ok r →
        _should_execute_tools A r = true →
        arespondLoop A ms (fuel + 1) calls
          = arespondLoop A (_ahandle_tool_calls A ms r.tool_calls) fuel (calls + 1))
    ∧ (∀ (A : AgentModel) (messages : List Message),
        (∀ ms b, ∃ r, A.generate ms b = Except.ok r) →
        ∃ v, arespond A messages = Except.ok v) := by
  refine ⟨⟨by decide, ("Error: ").toList, [], by decide⟩, ?_, ?_⟩
  · intro A ms fuel calls r hr hex
    simp only [arespondLoop, hr, hex, if_true]
  · intro A messages hgen
    have hloop : ∀ fuel ms calls, ∃ v,
        arespondLoop A ms fuel calls = Except.ok v := by
      intro fuel
      induction fuel with
      | zero =>
        intro ms calls
        exact ⟨([], calls), rfl⟩
      | succ fuel ih =>
        intro ms calls
        obtain ⟨r, hr⟩ := hgen ms A.supportsToolCalling
        by_cases hex : _should_execute_tools A r = true
        · simp only [arespondLoop, hr, hex, if_true]
          exact ih _ _
        · simp only [arespondLoop, hr, hex, if_false]
          by_cases hc : r.content.getD [] = []
          · obtain ⟨r2, hr2⟩ := hgen ms false
            simp only [hc, if_pos rfl, hr2]
            exact ⟨_, rfl⟩
          · simp only [if_neg hc]
            exact ⟨_, rfl⟩
    exact hloop A.maxIterations messages 0

/-- An agent whose tool handler always raises `boom` and whose provider
asks for one tool call, then returns text. -/
def c6Agent : AgentModel :=
  { supportsToolCalling := true,
    generate := fun ms _ =>
      if ms.length = 0 then Except.ok ⟨none, [c5Tc]⟩
      else Except.ok ⟨some ("ok").toList, []⟩,
    toolExec := fun _ => ToolOutcome.error ("boom").toList,
    maxIterations := 3 }

/-- Witness for C6: the loop finishes normally although every tool
handler raises. -/
theorem c6_witness :
    ∃ v, arespond c6Agent [] = Except.ok v :=
  c6_dispatcher_never_raises.2.2 c6Agent []
    (fun ms b => by
      rw [c6Agent]
      by_cases h : ms.length = 0 <;> simp [h])

/-- C8: a cancellation surfacing from one tool's execution is absorbed —
the dispatcher returns the fixed "cancelled by user" tool-result text,
the cancelled call still produces its tool message, and the remaining
calls of the same batch are still dispatched; whereas a cancellation
raised at the orchestrator's own generate suspension point propagates out
of `arespond` unhandled. -/
theorem c8_cancellation_absorbed_vs_propagated :
    (∀ (A : AgentModel) (tc : ToolCall), A.toolExec tc = ToolOutcome.cancelled →
        _aexecute_tool_call (A.toolExec tc)
            = ("Tool execution cancelled by user (Ctrl+C)").toList
        ∧ (toolResultMessage A tc).content
            = MsgContent.str (("Tool execution cancelled by user (Ctrl+C)").toList)
        ∧ ∀ (messages : List Message) (tcs : List ToolCall),
            _ahandle_tool_calls A messages (tc :: tcs)
              = messages ++ [_append_synthetic_assistant_turn (tc :: tcs)]
                ++ toolResultMessage A tc :: tcs.map (toolResultMessage A))
    ∧ (∀ (A : AgentModel) (messages : List Message),
        A.generate messages A.supportsToolCalling = Except.error () →
        0 < A.maxIterations →
        arespond A messages = Except.error ()) := by
  constructor
  · intro A tc hcancel
    refine ⟨by rw [hcancel]; decide, ?_, ?_⟩
    · rw [toolResultMessage, hcancel]
      rfl
    · intro messages tcs
      rw [_ahandle_tool_calls, List.map_cons]
  · intro A messages hfail hpos
    obtain ⟨k, hk⟩ : ∃ k, A.maxIterations = k + 1 := ⟨A.maxIterations - 1, by omega⟩
    rw [arespond, hk]
    simp only [arespondLoop, hfail]

/-- An agent whose first tool is cancelled mid-execution. -/
def c8Agent : AgentModel :=
  { supportsToolCalling := true,
    generate := fun _ _ => Except.ok ⟨some ("ok").toList, []⟩,
    toolExec := fun _ => ToolOutcome.cancelled,
    maxIterations := 3 }

/-- An agent whose provider call is cancelled (session-level
cancellation). -/
def c8CancelAgent : AgentModel :=
  { supportsToolCalling := true,
    generate := fun _ _ => Except.error (),
    toolExec := fun _ => ToolOutcome.ok ("done").toList,
    maxIterations := 3 }

/-- Witness for C8 on concrete cancelled-tool and cancelled-provider
agents. -/
theorem c8_witness :
    (_aexecute_tool_call (c8Agent.toolExec c5Tc)
        = ("Tool execution cancelled by user (Ctrl+C)").toList
      ∧ (toolResultMessage c8Agent c5Tc).content
          = MsgContent.str (("Tool execution cancelled by user (Ctrl+C)").toList)
      ∧ ∀ (messages : List Message) (tcs : List ToolCall),
          _ahandle_tool_calls c8Agent messages (c5Tc :: tcs)
            = messages ++ [_append_synthetic_assistant_turn (c5Tc :: tcs)]
              ++ toolResultMessage c8Agent c5Tc :: tcs.map (toolResultMessage c8Agent))
    ∧ arespond c8CancelAgent [] = Except.error () :=
  ⟨c8_cancellation_absorbed_vs_propagated.1 c8Agent c5Tc rfl,
   c8_cancellation_absorbed_vs_propagated.2 c8CancelAgent [] rfl (by decide)⟩

end RagOps
